import Mathlib

/-!
Verification of the crop-health notebook workflow of this repository.

The notebook `Real_world_examples/Crop_health.ipynb` orchestrates two
functions, `load_crophealth_data` (the DataLoader) and `run_crophealth_app`
(the InteractiveExplorer), whose implementation lives in the companion file
`Scripts/notebookapp_crophealth.py`, which is not part of the provided
sources.  The definitions below therefore embed the DataLoader and the
InteractiveExplorer as described by the design document: rational numbers
stand for reflectance values and coordinates, lists of observations stand
for the loaded data cube, and the interactive widget is an explicit state
machine driven by polygon-draw events.
-/

namespace CropHealth

/-- A point with rational coordinates (longitude `x`, latitude `y`). -/
structure Point where
  x : ℚ
  y : ℚ
deriving DecidableEq

/-- Modelled from the spec: one pixel of an `ImageObservation`
(`notebookapp_crophealth.py` is absent from the sources).  A pixel carries
its position, the red and near-infrared reflectance bands and the
good-quality flag produced by the pixel quality/cloud mask. -/
structure Pixel where
  pos : Point
  red : ℚ
  nir : ℚ
  good : Bool
deriving DecidableEq

/-- Modelled from the spec: the combination of the pixel quality/cloud mask
and the invalid-data mask.  A pixel is valid when it is flagged good quality
and both reflectance bands carry physically meaningful (non-negative)
values; all other pixels are unusable. -/
def Pixel.valid (p : Pixel) : Bool :=
  p.good && decide (0 ≤ p.red) && decide (0 ≤ p.nir)

/-- Modelled from the spec: the vegetation index `(nir - red) / (nir + red)`,
undefined (marked invalid, `none`) where `nir + red = 0`. -/
def ndvi (red nir : ℚ) : Option ℚ :=
  if nir + red = 0 then none else some ((nir - red) / (nir + red))

/-- The derived vegetation-index value of a pixel: defined only for valid
pixels whose band sum is non-zero. -/
def Pixel.index (p : Pixel) : Option ℚ :=
  if p.valid then ndvi p.red p.nir else none

/-- Modelled from the spec: one satellite capture at a timestamp, with a
satellite source identifier and its pixel grid. -/
structure ImageObservation where
  time : ℕ
  source : ℕ
  pixels : List Pixel
deriving DecidableEq

/-- The quality-pixel coverage fraction of an observation: the proportion of
its pixels that are valid (an empty observation has coverage `0`). -/
def coverage (o : ImageObservation) : ℚ :=
  ((o.pixels.countP Pixel.valid : ℕ) : ℚ) / ((o.pixels.length : ℕ) : ℚ)

/-- An axis-aligned bounding box: the spatial extent of the loaded data. -/
structure BBox where
  xmin : ℚ
  xmax : ℚ
  ymin : ℚ
  ymax : ℚ
deriving DecidableEq

/-- Modelled from the spec: the Dataset returned by the DataLoader — a fixed
spatial extent together with the retained observations in time order. -/
structure Dataset where
  extent : BBox
  observations : List ImageObservation
deriving DecidableEq

/-- Modelled from the spec: the outcome of one archive query for one
satellite source — either the archive is unreachable or it returns the raw
observations intersecting the area and time range. -/
inductive QueryResult where
  | unreachable : QueryResult
  | ok : List ImageObservation → QueryResult
deriving DecidableEq

/-- Modelled from the spec: the DataLoader error taxonomy. -/
inductive LoadError where
  | backendError : LoadError
  | dataUnavailableError : LoadError
deriving DecidableEq

/-- Modelled from the spec: the progress log printed during loading — the
per-source "filtered N out of M observations" counts. -/
structure LoadLog where
  retainedA : ℕ
  totalA : ℕ
  retainedB : ℕ
  totalB : ℕ
deriving DecidableEq

/-- Modelled from the spec: step 3 of the DataLoader — discard observations
whose fraction of valid pixels is at or below 50%. -/
def filterObs (l : List ImageObservation) : List ImageObservation :=
  l.filter (fun o => decide ((1 : ℚ) / 2 < coverage o))

/-- Comparison of observations by acquisition timestamp. -/
def byTime (o1 o2 : ImageObservation) : Prop :=
  o1.time ≤ o2.time

instance : DecidableRel byTime :=
  fun o1 o2 => inferInstanceAs (Decidable (o1.time ≤ o2.time))

instance : IsTotal ImageObservation byTime :=
  ⟨fun o1 o2 => Nat.le_total o1.time o2.time⟩

instance : IsTrans ImageObservation byTime :=
  ⟨fun _ _ _ h1 h2 => Nat.le_trans h1 h2⟩

/-- Modelled from the spec: step 5 of the DataLoader — merge the per-source
observation sequences into one time-ordered sequence ("Combining and
sorting data"). -/
def mergeObservations (a b : List ImageObservation) : List ImageObservation :=
  List.insertionSort byTime (a ++ b)

/-- Modelled from the spec: the DataLoader `load_crophealth_data`
(`load(area, time_range) -> Dataset`).  One query is issued per satellite
source; the per-source results are masked, filtered by the 50% coverage
rule, merged and sorted.  `BackendError` aborts the load when the archive
is unreachable; `DataUnavailableError` aborts it when no qualifying
observations exist.  The progress log is returned beside the Dataset. -/
def load (qa qb : QueryResult) (ext : BBox) :
    Except LoadError (Dataset × LoadLog) :=
  match qa, qb with
  | .unreachable, _ => .error .backendError
  | .ok _, .unreachable => .error .backendError
  | .ok la, .ok lb =>
    let fa := filterObs la
    let fb := filterObs lb
    let merged := mergeObservations fa fb
    if merged = [] then .error .dataUnavailableError
    else .ok (⟨ext, merged⟩, ⟨fa.length, la.length, fb.length, lb.length⟩)

/-- The edges of a polygon given as its cyclic vertex list. -/
def polyEdges (poly : List Point) : List (Point × Point) :=
  poly.zip (poly.drop 1 ++ poly.take 1)

/-- Ray-casting crossing test: whether the horizontal ray from `p` towards
positive `x` crosses the edge `e`. -/
def crosses (p : Point) (e : Point × Point) : Bool :=
  (decide (p.y < e.1.y) != decide (p.y < e.2.y)) &&
    decide (p.x < e.1.x + (p.y - e.1.y) * (e.2.x - e.1.x) / (e.2.y - e.1.y))

/-- Modelled from the spec: point-in-polygon membership for a drawn
RegionSelection, by the even-odd ray-casting rule. -/
def insidePoly (poly : List Point) (p : Point) : Bool :=
  decide ((polyEdges poly).countP (crosses p) % 2 = 1)

/-- The area of a drawn polygon, by the shoelace formula. -/
def polygonArea (poly : List Point) : ℚ :=
  |((polyEdges poly).map (fun e => e.1.x * e.2.y - e.2.x * e.1.y)).sum| / 2

/-- Membership of a point in the closed extent box. -/
def inClosedBox (e : BBox) (p : Point) : Bool :=
  decide (e.xmin ≤ p.x) && decide (p.x ≤ e.xmax) &&
    decide (e.ymin ≤ p.y) && decide (p.y ≤ e.ymax)

/-- The interval of segment parameters `t` at which the coordinate
`a + t * d` lies within `[lo, hi]` (interval clipping, one axis); `none`
when the coordinate is constant and out of range. -/
def axisParamInterval (a d lo hi : ℚ) : Option (ℚ × ℚ) :=
  if d = 0 then
    (if lo ≤ a ∧ a ≤ hi then some (0, 1) else none)
  else if 0 < d then some ((lo - a) / d, (hi - a) / d)
  else some ((hi - a) / d, (lo - a) / d)

/-- Whether the closed segment from `a` to `b` meets the closed extent box,
by intersecting the per-axis clipping intervals with `[0, 1]`. -/
def segIntersectsBox (e : BBox) (a b : Point) : Bool :=
  match axisParamInterval a.x (b.x - a.x) e.xmin e.xmax with
  | none => false
  | some (l1, h1) =>
    match axisParamInterval a.y (b.y - a.y) e.ymin e.ymax with
    | none => false
    | some (l2, h2) =>
      decide (max 0 (max l1 l2) ≤ min 1 (min h1 h2))

/-- A point lying on the closed segment from `a` to `b`, in parametric
form. -/
def onSegment (a b p : Point) : Prop :=
  ∃ t : ℚ, 0 ≤ t ∧ t ≤ 1 ∧
    p.x = a.x + t * (b.x - a.x) ∧ p.y = a.y + t * (b.y - a.y)

/-- Modelled from the spec: the test that a drawn polygon lies fully outside
the Dataset's spatial extent — no polygon edge meets the closed extent box,
and the box is not enclosed by the polygon (its corner lies outside the
polygon region). -/
def outsideExtent (poly : List Point) (e : BBox) : Bool :=
  !((polyEdges poly).any (fun ed => segIntersectsBox e ed.1 ed.2) ||
    insidePoly poly ⟨e.xmin, e.ymin⟩)

/-- The pixels of an observation lying inside the drawn polygon. -/
def insidePixels (poly : List Point) (o : ImageObservation) : List Pixel :=
  o.pixels.filter (fun p => insidePoly poly p.pos)

/-- Per-date coverage within the drawn polygon: the proportion of pixels
inside the polygon that are valid. -/
def polyCoverage (poly : List Point) (o : ImageObservation) : ℚ :=
  (((insidePixels poly o).countP Pixel.valid : ℕ) : ℚ) /
    (((insidePixels poly o).length : ℕ) : ℚ)

/-- The defined vegetation-index values of the pixels inside the polygon. -/
def indexValues (poly : List Point) (o : ImageObservation) : List ℚ :=
  (insidePixels poly o).filterMap Pixel.index

/-- The mean vegetation-index value over the pixels inside the polygon. -/
def meanIndex (poly : List Point) (o : ImageObservation) : ℚ :=
  (indexValues poly o).sum / (((indexValues poly o).length : ℕ) : ℚ)

/-- Modelled from the spec: one point of the plotted time series —
timestamp, mean index value and validity flag.  The value is `none` exactly
when the per-date coverage inside the polygon was insufficient. -/
structure SeriesPoint where
  time : ℕ
  value : Option ℚ
  valid : Bool
deriving DecidableEq

/-- The SeriesPoint computed for one observation and one drawn polygon:
mean index and a valid flag when coverage inside the polygon exceeds 50%,
a gap (no value, invalid) otherwise. -/
def seriesPoint (poly : List Point) (o : ImageObservation) : SeriesPoint :=
  if (1 : ℚ) / 2 < polyCoverage poly o then
    ⟨o.time, some (meanIndex poly o), true⟩
  else
    ⟨o.time, none, false⟩

/-- The time series plotted for a drawn polygon: one SeriesPoint per
Dataset observation, in Dataset order. -/
def computeSeries (poly : List Point) (ds : Dataset) : List SeriesPoint :=
  ds.observations.map (seriesPoint poly)

/-- Modelled from the spec: valid points are marked distinctly in the plot
(the `*` marker); invalid points are left as gaps. -/
def plotMarker (pt : SeriesPoint) : Bool :=
  pt.valid

/-- Modelled from the spec: the inline messages the explorer can surface —
the recovered `InvalidSelectionError` for a degenerate polygon, and the
"no data" notice for a polygon outside the data extent. -/
inductive Message where
  | invalidSelectionError : Message
  | noData : Message
deriving DecidableEq

/-- Modelled from the spec: the state of one InteractiveExplorer session —
the Dataset handed over at launch, the rendered plots and the current
inline message. -/
structure ExplorerState where
  dataset : Dataset
  plots : List (List SeriesPoint)
  message : Option Message
deriving DecidableEq

/-- Modelled from the spec: `run_crophealth_app` — launching the explorer on
a loaded Dataset, with no plot rendered and no message shown. -/
def launch (ds : Dataset) : ExplorerState :=
  ⟨ds, [], none⟩

/-- Modelled from the spec: the PolygonDrawn event handler.  A zero-area
polygon raises `InvalidSelectionError`, recovered locally as an inline
message with all prior plots untouched; a polygon fully outside the data
extent yields an empty series and a "no data" message; otherwise the mean
NDVI time series for the polygon is computed and added to the plots. -/
def handleDraw (s : ExplorerState) (poly : List Point) : ExplorerState :=
  if polygonArea poly = 0 then
    { s with message := some .invalidSelectionError }
  else if outsideExtent poly s.dataset.extent then
    { s with plots := s.plots ++ [[]], message := some .noData }
  else
    { s with plots := s.plots ++ [computeSeries poly s.dataset],
             message := none }

/-- A whole widget session: the explorer folds the polygon-draw events it
receives over its state. -/
def runSession (s : ExplorerState) (events : List (List Point)) :
    ExplorerState :=
  events.foldl handleDraw s

/-- The polygon tracing the full data extent's bounding box. -/
def extentPolygon (e : BBox) : List Point :=
  [⟨e.xmin, e.ymin⟩, ⟨e.xmax, e.ymin⟩, ⟨e.xmax, e.ymax⟩, ⟨e.xmin, e.ymax⟩]

/-- Concrete valid pixel used by the witnesses: red 1, nir 3, good quality. -/
def pixW : Pixel :=
  ⟨⟨1, 1⟩, 1, 3, true⟩

/-- Concrete observation used by the witnesses. -/
def obsW1 : ImageObservation :=
  ⟨5, 0, [pixW]⟩

/-- Concrete extent used by the witnesses. -/
def extW : BBox :=
  ⟨0, 4, 0, 4⟩

/-- Concrete Dataset produced by the witnesses' load. -/
def dsW : Dataset :=
  ⟨extW, [obsW1]⟩

/-- Concrete progress log produced by the witnesses' load. -/
def logW : LoadLog :=
  ⟨1, 1, 0, 0⟩

/-- First-source observation at timestamp 7 (counterexample input). -/
def obsXa : ImageObservation :=
  ⟨7, 0, [pixW]⟩

/-- Second-source observation at the same timestamp 7 (counterexample
input). -/
def obsXb : ImageObservation :=
  ⟨7, 1, [pixW]⟩

/-- Second-source observation at the distinct timestamp 9 (witness input). -/
def obsYb : ImageObservation :=
  ⟨9, 1, [pixW]⟩

/-- A degenerate (zero-area) polygon: a single repeated segment. -/
def polyZ : List Point :=
  [⟨1, 1⟩, ⟨2, 2⟩]

/-- A square polygon inside the witness extent. -/
def polyR : List Point :=
  [⟨0, 0⟩, ⟨2, 0⟩, ⟨2, 2⟩, ⟨0, 2⟩]

/-- A triangle lying fully outside the witness extent. -/
def polyOut : List Point :=
  [⟨10, 10⟩, ⟨12, 10⟩, ⟨10, 12⟩]

/-- Membership in the coverage filter forces coverage above 50%. -/
theorem coverage_of_mem_filterObs {o : ImageObservation}
    {l : List ImageObservation} (h : o ∈ filterObs l) :
    (1 : ℚ) / 2 < coverage o := by
  unfold filterObs at h
  exact of_decide_eq_true (List.mem_filter.mp h).2

/-- C1: for every Dataset returned by the DataLoader, every retained
observation has a good-quality-pixel coverage fraction strictly greater
than 50%. -/
theorem load_retains_only_covered (qa qb : QueryResult) (ext : BBox)
    (ds : Dataset) (log : LoadLog)
    (h : load qa qb ext = .ok (ds, log)) :
    ∀ o ∈ ds.observations, (1 : ℚ) / 2 < coverage o := by
  intro o ho
  cases qa with
  | unreachable => simp [load] at h
  | ok la =>
    cases qb with
    | unreachable => simp [load] at h
    | ok lb =>
      simp only [load] at h
      split at h
      · exact absurd h (by simp)
      · have hobs : ds.observations = mergeObservations (filterObs la) (filterObs lb) := by
          have := congrArg (fun r => match r with
            | Except.ok (d, _) => d.observations
            | _ => []) h
          simpa using this.symm
        rw [hobs] at ho
        have hmem : o ∈ filterObs la ++ filterObs lb := by
          simpa [mergeObservations] using
            (List.mem_insertionSort byTime).mp ho
        rcases List.mem_append.mp hmem with hm | hm
        · exact coverage_of_mem_filterObs hm
        · exact coverage_of_mem_filterObs hm

/-- Witness for C1 at a concrete successful load. -/
theorem load_retains_only_covered_witness :
    (1 : ℚ) / 2 < coverage obsW1 :=
  load_retains_only_covered (.ok [obsW1]) (.ok []) extW dsW logW
    (by with_unfolding_all rfl) obsW1 (by decide)

/-- C2: for every valid pixel the vegetation index equals
`(nir - red) / (nir + red)` and lies in `[-1, 1]`; where the band sum is
zero the index is marked invalid (`none`) instead of failing. -/
theorem index_well_defined (p : Pixel) (hv : p.valid = true) :
    (p.nir + p.red = 0 → p.index = none) ∧
    (p.nir + p.red ≠ 0 →
      p.index = some ((p.nir - p.red) / (p.nir + p.red)) ∧
      ∀ q : ℚ, p.index = some q → -1 ≤ q ∧ q ≤ 1) := by
  have hv' : p.good = true ∧ (0 : ℚ) ≤ p.red ∧ (0 : ℚ) ≤ p.nir := by
    have h := hv
    unfold Pixel.valid at h
    simp only [Bool.and_eq_true, decide_eq_true_eq] at h
    exact ⟨h.1.1, h.1.2, h.2⟩
  obtain ⟨-, hred, hnir⟩ := hv'
  constructor
  · intro h0
    unfold Pixel.index ndvi
    simp [hv, h0]
  · intro hne
    have hpos : 0 < p.nir + p.red :=
      lt_of_le_of_ne (by linarith) (Ne.symm hne)
    have hidx : p.index = some ((p.nir - p.red) / (p.nir + p.red)) := by
      unfold Pixel.index ndvi
      simp [hv, hne]
    refine ⟨hidx, ?_⟩
    intro q hq
    rw [hidx, Option.some_inj] at hq
    subst hq
    constructor
    · rw [le_div_iff₀ hpos]
      linarith
    · rw [div_le_one hpos]
      linarith

/-- Witness for C2 at the concrete pixel with red 1 and nir 3. -/
theorem index_well_defined_witness :
    -1 ≤ (1 : ℚ) / 2 ∧ (1 : ℚ) / 2 ≤ 1 :=
  ((index_well_defined pixW (by decide)).2
      (by norm_num [pixW])).2 (1 / 2)
    (by norm_num [pixW, Pixel.index, Pixel.valid, ndvi])

/-- C10: on every successful load, the returned observation count is the sum
of the per-source retained counts reported in the progress log, and each
retained count is at most the corresponding queried count. -/
theorem load_log_consistent (qa qb : QueryResult) (ext : BBox)
    (ds : Dataset) (log : LoadLog)
    (h : load qa qb ext = .ok (ds, log)) :
    ds.observations.length = log.retainedA + log.retainedB ∧
    log.retainedA ≤ log.totalA ∧ log.retainedB ≤ log.totalB := by
  cases qa with
  | unreachable => simp [load] at h
  | ok la =>
    cases qb with
    | unreachable => simp [load] at h
    | ok lb =>
      simp only [load] at h
      split at h
      · exact absurd h (by simp)
      · simp only [Except.ok.injEq, Prod.mk.injEq] at h
        obtain ⟨hds, hlog⟩ := h
        subst hds
        subst hlog
        refine ⟨?_, ?_, ?_⟩
        · simp [mergeObservations, List.length_insertionSort,
            List.length_append]
        · exact List.length_filter_le _ la
        · exact List.length_filter_le _ lb

/-- Witness for C10 at a concrete successful load. -/
theorem load_log_consistent_witness :
    dsW.observations.length = logW.retainedA + logW.retainedB ∧
    logW.retainedA ≤ logW.totalA ∧ logW.retainedB ≤ logW.totalB :=
  load_log_consistent (.ok [obsW1]) (.ok []) extW dsW logW
    (by with_unfolding_all rfl)

/-- The merged sequence is empty exactly when both filtered sequences are. -/
theorem mergeObservations_eq_nil {a b : List ImageObservation} :
    mergeObservations a b = [] ↔ a = [] ∧ b = [] := by
  unfold mergeObservations
  constructor
  · intro h
    have hlen := congrArg List.length h
    simp only [List.length_insertionSort, List.length_append,
      List.length_nil, Nat.add_eq_zero] at hlen
    exact ⟨List.length_eq_zero.mp hlen.1, List.length_eq_zero.mp hlen.2⟩
  · rintro ⟨rfl, rfl⟩
    rfl

/-- C5: the load fails with `DataUnavailableError` exactly when both queries
succeed but no observation passes the coverage filter, and with
`BackendError` exactly when some source's archive query is unreachable; an
error aborts the load so no Dataset is returned, and the model issues one
query per source per call. -/
theorem load_error_characterisation (qa qb : QueryResult) (ext : BBox) :
    (load qa qb ext = .error .backendError ↔
      qa = .unreachable ∨ qb = .unreachable) ∧
    (load qa qb ext = .error .dataUnavailableError ↔
      ∃ la lb, qa = .ok la ∧ qb = .ok lb ∧
        filterObs la = [] ∧ filterObs lb = []) := by
  cases qa with
  | unreachable => simp [load]
  | ok la =>
    cases qb with
    | unreachable => simp [load]
    | ok lb =>
      simp only [load]
      constructor
      · constructor
        · intro h
          split at h <;> simp_all
        · rintro (h | h) <;> exact absurd h (by simp)
      · constructor
        · intro h
          split at h
          · rename_i hm
            have hmm := mergeObservations_eq_nil.mp hm
            exact ⟨la, lb, rfl, rfl, hmm.1, hmm.2⟩
          · exact absurd h (by simp)
        · rintro ⟨la', lb', hla, hlb, h1, h2⟩
          obtain rfl : la = la' := by
            injection hla
          obtain rfl : lb = lb' := by
            injection hlb
          rw [if_pos (mergeObservations_eq_nil.mpr ⟨h1, h2⟩)]

/-- C3 counterexample: two single-source sequences sharing the acquisition
timestamp 7 merge into a sequence that is not strictly sorted by
timestamp. -/
theorem merge_not_strictly_sorted_cex :
    ¬ (mergeObservations [obsXa] [obsXb]).Pairwise
        (fun o1 o2 => o1.time < o2.time) := by
  decide

/-- C3 (amended): provided the acquisition timestamps across the two
per-source sequences are pairwise distinct, the merged sequence is sorted
strictly by ascending timestamp, and in particular contains no two entries
with the same source and the same timestamp. -/
theorem merge_strictly_sorted (a b : List ImageObservation)
    (h : (a ++ b).Pairwise (fun o1 o2 => o1.time ≠ o2.time)) :
    (mergeObservations a b).Pairwise (fun o1 o2 => o1.time < o2.time) ∧
    (mergeObservations a b).Pairwise
      (fun o1 o2 => ¬ (o1.source = o2.source ∧ o1.time = o2.time)) := by
  have hsorted : (mergeObservations a b).Pairwise byTime := by
    simpa [mergeObservations] using
      List.sorted_insertionSort byTime (a ++ b)
  have hperm : ((a ++ b) : List ImageObservation).Perm
      (List.insertionSort byTime (a ++ b)) :=
    (List.perm_insertionSort byTime (a ++ b)).symm
  have hne : (mergeObservations a b).Pairwise
      (fun o1 o2 => o1.time ≠ o2.time) := by
    unfold mergeObservations
    exact h.perm hperm (fun hxy => hxy.symm)
  constructor
  · exact (hsorted.and hne).imp (fun hx => lt_of_le_of_ne hx.1 hx.2)
  · exact hne.imp (fun hx hc => hx hc.2)

/-- Witness for C3 (amended): merging timestamps 7 and 9 gives a strictly
sorted sequence. -/
theorem merge_strictly_sorted_witness :
    (mergeObservations [obsXa] [obsYb]).Pairwise
      (fun o1 o2 => o1.time < o2.time) :=
  (merge_strictly_sorted [obsXa] [obsYb] (by decide)).1

/-- The PolygonDrawn handler never changes the Dataset of the session. -/
theorem handleDraw_dataset (s : ExplorerState) (poly : List Point) :
    (handleDraw s poly).dataset = s.dataset := by
  unfold handleDraw
  split
  · rfl
  · split <;> rfl

/-- The plots a draw produces do not depend on the message on display. -/
theorem handleDraw_plots_message (s : ExplorerState) (m : Option Message)
    (poly : List Point) :
    (handleDraw { s with message := m } poly).plots =
      (handleDraw s poly).plots := by
  unfold handleDraw
  by_cases h1 : polygonArea poly = 0
  · simp [h1]
  · by_cases h2 : outsideExtent poly s.dataset.extent
    · simp [h1, h2]
    · simp [h1, h2]

/-- C7: the Dataset handed to the explorer is never mutated — across any
sequence of polygon-draw events the session's Dataset stays the one given
at launch, and each draw can only append to the rendered plots. -/
theorem dataset_never_mutated (s : ExplorerState)
    (events : List (List Point)) :
    (runSession s events).dataset = s.dataset ∧
    ∀ poly, ∃ added,
      (handleDraw s poly).plots = s.plots ++ added := by
  constructor
  · induction events generalizing s with
    | nil => rfl
    | cons e es ih =>
      unfold runSession at ih ⊢
      simp only [List.foldl_cons]
      rw [ih (handleDraw s e), handleDraw_dataset]
  · intro poly
    unfold handleDraw
    split
    · exact ⟨[], by simp⟩
    · split
      · exact ⟨[[]], rfl⟩
      · exact ⟨[computeSeries poly s.dataset], rfl⟩

/-- C6: a zero-area polygon raises `InvalidSelectionError`, surfaced as the
inline message; prior plots and the Dataset are untouched and the session
keeps handling further draws exactly as before. -/
theorem zero_area_polygon_rejected (s : ExplorerState) (poly : List Point)
    (h : polygonArea poly = 0) :
    handleDraw s poly =
      { s with message := some Message.invalidSelectionError } ∧
    (handleDraw s poly).plots = s.plots ∧
    (handleDraw s poly).dataset = s.dataset ∧
    ∀ poly2, (handleDraw (handleDraw s poly) poly2).plots =
      (handleDraw s poly2).plots := by
  have he : handleDraw s poly =
      { s with message := some Message.invalidSelectionError } := by
    unfold handleDraw
    rw [if_pos h]
  refine ⟨he, by rw [he], by rw [he], ?_⟩
  intro poly2
  rw [he]
  exact handleDraw_plots_message s _ poly2

/-- Witness for C6 at a concrete degenerate polygon. -/
theorem zero_area_polygon_rejected_witness :
    handleDraw (launch dsW) polyZ =
      { launch dsW with message := some Message.invalidSelectionError } :=
  (zero_area_polygon_rejected (launch dsW) polyZ
    (by with_unfolding_all rfl)).1

/-- Soundness of the per-axis clipping interval: any parameter inside the
returned interval places the coordinate within `[lo, hi]`. -/
theorem axisParamInterval_sound {a d lo hi l h t : ℚ}
    (hint : axisParamInterval a d lo hi = some (l, h))
    (hl : l ≤ t) (hh : t ≤ h) :
    lo ≤ a + t * d ∧ a + t * d ≤ hi := by
  unfold axisParamInterval at hint
  split at hint
  · rename_i h0
    split at hint
    · rename_i hin
      subst h0
      constructor
      · simpa using hin.1
      · simpa using hin.2
    · exact absurd hint (by simp)
  · rename_i h0
    split at hint
    · rename_i hpos
      simp only [Option.some_inj, Prod.mk.injEq] at hint
      obtain ⟨rfl, rfl⟩ := hint
      constructor
      · have := (div_le_iff₀ hpos).mp hl
        linarith
      · have := (le_div_iff₀ hpos).mp hh
        linarith
    · rename_i hpos
      have hneg : d < 0 := lt_of_le_of_ne (not_lt.mp hpos) h0
      simp only [Option.some_inj, Prod.mk.injEq] at hint
      obtain ⟨rfl, rfl⟩ := hint
      constructor
      · have := (le_div_iff_of_neg hneg).mp hh
        linarith
      · have := (div_le_iff_of_neg hneg).mp hl
        linarith

/-- Completeness of the per-axis clipping interval: a parameter in `[0, 1]`
whose coordinate lies within `[lo, hi]` is inside the returned interval. -/
theorem axisParamInterval_complete {a d lo hi t : ℚ}
    (h1 : lo ≤ a + t * d) (h2 : a + t * d ≤ hi)
    (ht0 : 0 ≤ t) (ht1 : t ≤ 1) :
    ∃ l h, axisParamInterval a d lo hi = some (l, h) ∧ l ≤ t ∧ t ≤ h := by
  by_cases h0 : d = 0
  · subst h0
    rw [mul_zero, add_zero] at h1 h2
    refine ⟨0, 1, ?_, ht0, ht1⟩
    unfold axisParamInterval
    rw [if_pos rfl, if_pos ⟨h1, h2⟩]
  · by_cases hpos : 0 < d
    · refine ⟨(lo - a) / d, (hi - a) / d, ?_, ?_, ?_⟩
      · unfold axisParamInterval
        rw [if_neg h0, if_pos hpos]
      · exact (div_le_iff₀ hpos).mpr (by linarith)
      · exact (le_div_iff₀ hpos).mpr (by linarith)
    · have hneg : d < 0 := lt_of_le_of_ne (not_lt.mp hpos) h0
      refine ⟨(hi - a) / d, (lo - a) / d, ?_, ?_, ?_⟩
      · unfold axisParamInterval
        rw [if_neg h0, if_neg hpos]
      · exact (div_le_iff_of_neg hneg).mpr (by linarith)
      · exact (le_div_iff_of_neg hneg).mpr (by linarith)

/-- Soundness of the segment-box test: a positive answer exhibits a point of
the closed segment inside the closed box. -/
theorem segIntersectsBox_sound {e : BBox} {a b : Point}
    (h : segIntersectsBox e a b = true) :
    ∃ t : ℚ, 0 ≤ t ∧ t ≤ 1 ∧
      inClosedBox e ⟨a.x + t * (b.x - a.x), a.y + t * (b.y - a.y)⟩ = true := by
  unfold segIntersectsBox at h
  rcases hx : axisParamInterval a.x (b.x - a.x) e.xmin e.xmax with - | ⟨l1, h1⟩
  · simp [hx] at h
  · rcases hy : axisParamInterval a.y (b.y - a.y) e.ymin e.ymax with - | ⟨l2, h2⟩
    · simp [hx, hy] at h
    · simp only [hx, hy] at h
      have ht := of_decide_eq_true h
      refine ⟨max 0 (max l1 l2), le_max_left 0 _, ?_, ?_⟩
      · exact le_trans ht (min_le_left 1 _)
      · have hxb := axisParamInterval_sound hx
          ((le_max_left l1 l2).trans (le_max_right 0 _))
          (le_trans ht ((min_le_right 1 _).trans (min_le_left h1 h2)))
        have hyb := axisParamInterval_sound hy
          ((le_max_right l1 l2).trans (le_max_right 0 _))
          (le_trans ht ((min_le_right 1 _).trans (min_le_right h1 h2)))
        unfold inClosedBox
        simp only [Bool.and_eq_true, decide_eq_true_eq]
        exact ⟨⟨⟨hxb.1, hxb.2⟩, hyb.1⟩, hyb.2⟩

/-- Completeness of the segment-box test: a point of the closed segment
inside the closed box forces a positive answer. -/
theorem segIntersectsBox_complete {e : BBox} {a b : Point} {t : ℚ}
    (ht0 : 0 ≤ t) (ht1 : t ≤ 1)
    (hin : inClosedBox e
      ⟨a.x + t * (b.x - a.x), a.y + t * (b.y - a.y)⟩ = true) :
    segIntersectsBox e a b = true := by
  unfold inClosedBox at hin
  simp only [Bool.and_eq_true, decide_eq_true_eq] at hin
  obtain ⟨⟨⟨hx1, hx2⟩, hy1⟩, hy2⟩ := hin
  obtain ⟨l1, h1, hix, hl1, hh1⟩ := axisParamInterval_complete hx1 hx2 ht0 ht1
  obtain ⟨l2, h2, hiy, hl2, hh2⟩ := axisParamInterval_complete hy1 hy2 ht0 ht1
  unfold segIntersectsBox
  simp only [hix, hiy]
  exact decide_eq_true
    (le_trans (max_le ht0 (max_le hl1 hl2)) (le_min ht1 (le_min hh1 hh2)))

/-- C8: for every polygon lying fully outside the Dataset's spatial extent —
no point of the closed extent box is inside the polygon region or on one of
its edges — the handler produces an empty series and the "no data" inline
message instead of failing, and the session keeps its Dataset for further
draws. -/
theorem outside_polygon_no_data (s : ExplorerState) (poly : List Point)
    (hA : polygonArea poly ≠ 0)
    (hx : s.dataset.extent.xmin ≤ s.dataset.extent.xmax)
    (hy : s.dataset.extent.ymin ≤ s.dataset.extent.ymax)
    (hOut : ∀ p : Point, inClosedBox s.dataset.extent p = true →
      insidePoly poly p = false ∧
      ∀ ed ∈ polyEdges poly, ¬ onSegment ed.1 ed.2 p) :
    handleDraw s poly =
      { s with plots := s.plots ++ [[]], message := some Message.noData } ∧
    (handleDraw s poly).dataset = s.dataset ∧
    ∀ poly2, (handleDraw (handleDraw s poly) poly2).dataset = s.dataset := by
  have hany : (polyEdges poly).any
      (fun ed => segIntersectsBox s.dataset.extent ed.1 ed.2) = false := by
    rw [List.any_eq_false]
    intro ed hed hseg
    obtain ⟨t, ht0, ht1, hin⟩ := segIntersectsBox_sound hseg
    exact (hOut _ hin).2 ed hed ⟨t, ht0, ht1, rfl, rfl⟩
  have hcorner : insidePoly poly
      ⟨s.dataset.extent.xmin, s.dataset.extent.ymin⟩ = false := by
    refine (hOut _ ?_).1
    simp [inClosedBox, hx, hy]
  have hO : outsideExtent poly s.dataset.extent = true := by
    unfold outsideExtent
    rw [hany, hcorner]
    rfl
  have he : handleDraw s poly =
      { s with plots := s.plots ++ [[]],
               message := some Message.noData } := by
    unfold handleDraw
    rw [if_neg hA, if_pos hO]
  refine ⟨he, by rw [he], ?_⟩
  intro poly2
  rw [handleDraw_dataset, handleDraw_dataset]

/-- Witness for C8 at a concrete polygon fully beyond the extent. -/
theorem outside_polygon_no_data_witness :
    handleDraw (launch dsW) polyOut =
      { launch dsW with plots := [[]],
                        message := some Message.noData } :=
  (outside_polygon_no_data (launch dsW) polyOut
    (by rw [show polygonArea polyOut = 2 from by with_unfolding_all rfl]
        norm_num)
    (by decide) (by decide)
    (by
      intro p hp
      have hpbox : (0 : ℚ) ≤ p.x ∧ p.x ≤ 4 ∧ (0 : ℚ) ≤ p.y ∧ p.y ≤ 4 := by
        simpa [inClosedBox, launch, dsW, extW, and_assoc] using hp
      obtain ⟨hx0, hx4, hy0, hy4⟩ := hpbox
      constructor
      · have h10 : p.y < 10 := by linarith
        have h12 : p.y < 12 := by linarith
        unfold insidePoly polyEdges polyOut
        simp [crosses, h10, h12, List.countP_cons]
      · intro ed hed
        have hed' : ed = (⟨10, 10⟩, ⟨12, 10⟩) ∨ ed = (⟨12, 10⟩, ⟨10, 12⟩) ∨
            ed = (⟨10, 12⟩, ⟨10, 10⟩) := by
          simpa [polyEdges, polyOut] using hed
        rintro ⟨t, ht0, ht1, hpx, hpy⟩
        rcases hed' with rfl | rfl | rfl
        · norm_num at hpy
          linarith
        · norm_num at hpy
          linarith
        · norm_num at hpx
          linarith)).1

/-- C4: for a drawable polygon (non-degenerate, not outside the extent) the
handler renders exactly the computed time series; each Dataset timestamp
whose coverage inside the polygon exceeds 50% carries the mean index value
over the polygon's pixels and is marked valid, every other timestamp is a
gap (no value, validity flag false), and the plot marker singles out
exactly the valid points. -/
theorem polygon_drawn_series (s : ExplorerState) (poly : List Point)
    (hA : polygonArea poly ≠ 0)
    (hO : outsideExtent poly s.dataset.extent = false) :
    handleDraw s poly =
      { s with plots := s.plots ++ [computeSeries poly s.dataset],
               message := none } ∧
    ∀ o ∈ s.dataset.observations,
      ((1 : ℚ) / 2 < polyCoverage poly o →
        seriesPoint poly o = ⟨o.time, some (meanIndex poly o), true⟩) ∧
      (¬ (1 : ℚ) / 2 < polyCoverage poly o →
        seriesPoint poly o = ⟨o.time, none, false⟩) ∧
      (plotMarker (seriesPoint poly o) = true ↔
        (1 : ℚ) / 2 < polyCoverage poly o) := by
  constructor
  · unfold handleDraw
    rw [if_neg hA, if_neg (by simp [hO])]
  · intro o _
    refine ⟨?_, ?_, ?_⟩
    · intro hc
      unfold seriesPoint
      rw [if_pos hc]
    · intro hc
      unfold seriesPoint
      rw [if_neg hc]
    · unfold plotMarker seriesPoint
      split
      · rename_i hc
        simpa using hc
      · rename_i hc
        simpa using hc

/-- Witness for C4: the concrete square polygon over the witness Dataset
yields a valid mean-NDVI point for the single observation. -/
theorem polygon_drawn_series_witness :
    seriesPoint polyR obsW1 =
      ⟨obsW1.time, some (meanIndex polyR obsW1), true⟩ :=
  ((polygon_drawn_series (launch dsW) polyR
      (by rw [show polygonArea polyR = 4 from by with_unfolding_all rfl]
          norm_num)
      (by with_unfolding_all rfl)).2 obsW1 (by decide)).1
    (by rw [show polyCoverage polyR obsW1 = 1 from by with_unfolding_all rfl]
        norm_num)

/-- A point strictly inside a bounding box is inside the polygon tracing
that box, under the even-odd ray-casting rule. -/
theorem insidePoly_extentPolygon (e : BBox) (p : Point)
    (hx1 : e.xmin < p.x) (hx2 : p.x < e.xmax)
    (hy1 : e.ymin < p.y) (hy2 : p.y < e.ymax) :
    insidePoly (extentPolygon e) p = true := by
  have hA : ¬ p.y < e.ymin := not_lt.mpr hy1.le
  have hB : p.y < e.ymax := hy2
  have hC : ¬ p.x < e.xmin := not_lt.mpr hx1.le
  have c1 : crosses p (⟨e.xmin, e.ymin⟩, ⟨e.xmax, e.ymin⟩) = false := by
    simp [crosses, hA]
  have c2 : crosses p (⟨e.xmax, e.ymin⟩, ⟨e.xmax, e.ymax⟩) = true := by
    simp [crosses, hA, hB, hx2]
  have c3 : crosses p (⟨e.xmax, e.ymax⟩, ⟨e.xmin, e.ymax⟩) = false := by
    simp [crosses, hB]
  have c4 : crosses p (⟨e.xmin, e.ymax⟩, ⟨e.xmin, e.ymin⟩) = false := by
    simp [crosses, hA, hB, hC]
  unfold insidePoly polyEdges extentPolygon
  simp [List.countP_cons, c1, c2, c3, c4]

/-- When every pixel of the observation lies strictly inside the extent,
the extent polygon selects all of them. -/
theorem insidePixels_extentPolygon (e : BBox) (o : ImageObservation)
    (hpx : ∀ px ∈ o.pixels,
      e.xmin < px.pos.x ∧ px.pos.x < e.xmax ∧
      e.ymin < px.pos.y ∧ px.pos.y < e.ymax) :
    insidePixels (extentPolygon e) o = o.pixels := by
  unfold insidePixels
  rw [List.filter_eq_self]
  intro px hpx'
  obtain ⟨h1, h2, h3, h4⟩ := hpx px hpx'
  exact insidePoly_extentPolygon e px.pos h1 h2 h3 h4

/-- The validity flag of a series point records the 50% coverage rule. -/
theorem seriesPoint_valid (poly : List Point) (o : ImageObservation) :
    (seriesPoint poly o).valid =
      decide ((1 : ℚ) / 2 < polyCoverage poly o) := by
  unfold seriesPoint
  split
  · rename_i hc
    exact (decide_eq_true hc).symm
  · rename_i hc
    exact (decide_eq_false hc).symm

/-- The shoelace area of the extent polygon is the area of the extent. -/
theorem polygonArea_extentPolygon (e : BBox) :
    polygonArea (extentPolygon e) =
      |(e.xmax - e.xmin) * (e.ymax - e.ymin)| := by
  have h : ((polyEdges (extentPolygon e)).map
      (fun ed => ed.1.x * ed.2.y - ed.2.x * ed.1.y)).sum =
      2 * ((e.xmax - e.xmin) * (e.ymax - e.ymin)) := by
    simp only [polyEdges, extentPolygon, List.drop, List.take,
      List.cons_append, List.nil_append, List.zip_cons_cons,
      List.zip_nil_right, List.map_cons, List.map_nil, List.sum_cons,
      List.sum_nil]
    ring
  unfold polygonArea
  rw [h, abs_mul]
  rw [show |(2 : ℚ)| = 2 from by norm_num]
  ring

/-- The extent polygon is never classified as fully outside the extent: its
bottom edge meets the box at its own starting corner. -/
theorem outsideExtent_extentPolygon (e : BBox)
    (hx : e.xmin ≤ e.xmax) (hy : e.ymin ≤ e.ymax) :
    outsideExtent (extentPolygon e) e = false := by
  have hseg : segIntersectsBox e ⟨e.xmin, e.ymin⟩ ⟨e.xmax, e.ymin⟩ = true := by
    apply segIntersectsBox_complete (t := 0) le_rfl zero_le_one
    simp [inClosedBox, hx, hy]
  have hany : (polyEdges (extentPolygon e)).any
      (fun ed => segIntersectsBox e ed.1 ed.2) = true :=
    List.any_eq_true.mpr ⟨(⟨e.xmin, e.ymin⟩, ⟨e.xmax, e.ymin⟩),
      by simp [polyEdges, extentPolygon], hseg⟩
  unfold outsideExtent
  rw [hany]
  rfl

/-- C9: drawing the polygon tracing the full data extent's bounding box (for
a Dataset whose pixels lie strictly inside the extent) renders one series
point per observation; the per-date coverage inside that polygon coincides
with each observation's own coverage fraction, and the number of valid
series points equals the observation count minus the observations excluded
by the coverage rule inside the polygon. -/
theorem bbox_polygon_series (s : ExplorerState)
    (hx : s.dataset.extent.xmin < s.dataset.extent.xmax)
    (hy : s.dataset.extent.ymin < s.dataset.extent.ymax)
    (hpx : ∀ o ∈ s.dataset.observations, ∀ px ∈ o.pixels,
      s.dataset.extent.xmin < px.pos.x ∧ px.pos.x < s.dataset.extent.xmax ∧
      s.dataset.extent.ymin < px.pos.y ∧ px.pos.y < s.dataset.extent.ymax) :
    handleDraw s (extentPolygon s.dataset.extent) =
      { s with plots := s.plots ++
                 [computeSeries (extentPolygon s.dataset.extent) s.dataset],
               message := none } ∧
    (computeSeries (extentPolygon s.dataset.extent) s.dataset).length =
      s.dataset.observations.length ∧
    (∀ o ∈ s.dataset.observations,
      polyCoverage (extentPolygon s.dataset.extent) o = coverage o) ∧
    (computeSeries (extentPolygon s.dataset.extent) s.dataset).countP
        (fun pt => pt.valid) =
      s.dataset.observations.length -
        s.dataset.observations.countP
          (fun o => decide (polyCoverage (extentPolygon s.dataset.extent) o
            ≤ 1 / 2)) := by
  have hA : polygonArea (extentPolygon s.dataset.extent) ≠ 0 := by
    rw [polygonArea_extentPolygon]
    simp only [ne_eq, abs_eq_zero]
    exact mul_ne_zero (sub_ne_zero.mpr hx.ne') (sub_ne_zero.mpr hy.ne')
  have hO : outsideExtent (extentPolygon s.dataset.extent)
      s.dataset.extent = false :=
    outsideExtent_extentPolygon s.dataset.extent hx.le hy.le
  refine ⟨?_, ?_, ?_, ?_⟩
  · unfold handleDraw
    rw [if_neg hA, if_neg (by simp [hO])]
  · unfold computeSeries
    exact List.length_map _ _
  · intro o ho
    unfold polyCoverage coverage
    rw [insidePixels_extentPolygon s.dataset.extent o (hpx o ho)]
  · unfold computeSeries
    rw [List.countP_map]
    rw [List.countP_congr (q := fun o =>
        decide ((1 : ℚ) / 2 < polyCoverage (extentPolygon s.dataset.extent) o))
      (fun o _ => by simp [Function.comp, seriesPoint_valid])]
    have hsplit := List.length_eq_countP_add_countP
      (fun o => decide ((1 : ℚ) / 2 <
        polyCoverage (extentPolygon s.dataset.extent) o))
      s.dataset.observations
    have hcompl : List.countP (fun o => decide ¬ (decide ((1 : ℚ) / 2 <
          polyCoverage (extentPolygon s.dataset.extent) o) = true))
          s.dataset.observations =
        List.countP (fun o => decide
          (polyCoverage (extentPolygon s.dataset.extent) o ≤ 1 / 2))
          s.dataset.observations :=
      List.countP_congr (fun o _ => by simp [not_lt])
    rw [hcompl] at hsplit
    omega

/-- Witness for C9 at the concrete witness Dataset and its extent. -/
theorem bbox_polygon_series_witness :
    (computeSeries (extentPolygon (launch dsW).dataset.extent)
      (launch dsW).dataset).length =
      (launch dsW).dataset.observations.length :=
  (bbox_polygon_series (launch dsW) (by decide) (by decide)
    (by decide)).2.1
